import Mathlib

/-!
Verification of the tiny_future library (src/lib.rs): a single-assignment,
cross-thread result container with four lifecycle states
(Waiting / Ready / Consumed / Canceled), an independently locked shared-state
cell, and reference-count-driven automatic cancellation on handle drop.

The embedding is sequential: every public operation of the Rust code runs
inside the payload mutex, so its observable behaviour is a pure function of
the container value observed at the moment the lock is held.  The blocking
operations (get, try_get_timeout) loop on a condition variable and then run
the very same extraction code on the payload they observe when the wait loop
exits; they are embedded as that extraction applied to the observed container.
Arc reference counting is made explicit by a handle counter in `Sys`.
-/

namespace TinyFuture

/-- The state enum of a future (src/lib.rs lines 12-22). -/
inductive State where
  | Waiting
  | Ready
  | Consumed
  | Canceled
deriving DecidableEq

/-- The shared inner object of a future (src/lib.rs lines 26-31):
the payload mutex holds the pair (State, Option T); `sharedState` is the
separately locked auxiliary value; `cancelOnDrop` is the atomic
cancellation-eligibility flag. -/
structure Container (T U : Type) where
  state : State
  value : Option T
  sharedState : U
  cancelOnDrop : Bool
deriving DecidableEq

/-- `Future::with_state` (src/lib.rs lines 39-46): fresh container in
Waiting, no payload, flag true. -/
def with_state {T U : Type} (shared_state : U) : Container T U :=
  { state := State.Waiting, value := none, sharedState := shared_state,
    cancelOnDrop := true }

/-- `Future::set` (src/lib.rs lines 49-60): if the state is not Waiting,
return it as the error and change nothing; otherwise store the result and
move to Ready. -/
def set {T U : Type} (c : Container T U) (result : T) :
    Except State Unit × Container T U :=
  if c.state ≠ State.Waiting then
    (Except.error c.state, c)
  else
    (Except.ok (), { c with state := State.Ready, value := some result })

/-- `Future::cancel` (src/lib.rs lines 64-71): move Waiting to Canceled,
otherwise do nothing. -/
def cancel {T U : Type} (c : Container T U) : Container T U :=
  if c.state = State.Waiting then { c with state := State.Canceled } else c

/-- `Future::get_state` (src/lib.rs lines 73-75). -/
def get_state {T U : Type} (c : Container T U) : State :=
  c.state

/-- `Future::is_waiting` (src/lib.rs lines 77-79). -/
def is_waiting {T U : Type} (c : Container T U) : Bool :=
  get_state c = State.Waiting

/-- `Future::extract_payload` (src/lib.rs lines 145-154): if the state is
Ready, set it to Consumed and take the stored value; in every other case,
and in the (invariant-excluded) case of Ready with an empty slot, return the
state now held as the error. -/
def extract_payload {T U : Type} (c : Container T U) :
    Except State T × Container T U :=
  if c.state = State.Ready then
    match c.value with
    | some v => (Except.ok v, { c with state := State.Consumed, value := none })
    | none => (Except.error State.Consumed,
               { c with state := State.Consumed, value := none })
  else
    (Except.error c.state, c)

/-- `Future::try_get` (src/lib.rs lines 85-89): lock and extract. -/
def try_get {T U : Type} (c : Container T U) : Except State T × Container T U :=
  extract_payload c

/-- `Future::try_get_timeout` (src/lib.rs lines 94-103): wait on the condvar
until the state leaves Waiting or the deadline passes, then extract.  The
wait loop never mutates the payload, so the observable behaviour is
`extract_payload` applied to the container observed when the loop exits. -/
def try_get_timeout {T U : Type} (c : Container T U) :
    Except State T × Container T U :=
  extract_payload c

/-- `Future::get` (src/lib.rs lines 107-114): wait until the state leaves
Waiting, then extract; embedded like `try_get_timeout`, the argument being
the container observed when the wait loop exits. -/
def get {T U : Type} (c : Container T U) : Except State T × Container T U :=
  extract_payload c

/-- `Future::get_shared_state` (src/lib.rs lines 117-119): clone of the
auxiliary value (cloning a value is the value itself in the model). -/
def get_shared_state {T U : Type} (c : Container T U) : U × Container T U :=
  (c.sharedState, c)

/-- `Future::set_shared_state` (src/lib.rs lines 121-123). -/
def set_shared_state {T U : Type} (c : Container T U) (shared_state : U) :
    Container T U :=
  { c with sharedState := shared_state }

/-- `Future::access_shared_state` (src/lib.rs lines 126-129): the modifier
mutates the auxiliary value in place, embedded as a function U → U. -/
def access_shared_state {T U : Type} (c : Container T U) (modifier : U → U) :
    Container T U :=
  { c with sharedState := modifier c.sharedState }

/-- `Future::access_shared_state_param` (src/lib.rs lines 131-134). -/
def access_shared_state_param {T U V : Type} (c : Container T U)
    (modifier : U → V → U) (parameter : V) : Container T U :=
  { c with sharedState := modifier c.sharedState parameter }

/-- `Future::detach` (src/lib.rs lines 140-142): store false into the
cancel-on-drop flag. -/
def detach {T U : Type} (c : Container T U) : Container T U :=
  { c with cancelOnDrop := false }

/-- A container together with its live Arc strong count: `handles` is the
number of `Future` handles currently alive (src/lib.rs line 36). -/
structure Sys (T U : Type) where
  container : Container T U
  handles : Nat
deriving DecidableEq

/-- `Future::clone` (src/lib.rs lines 173-177): a new handle to the same
container; the Arc strong count grows by one. -/
def cloneHandle {T U : Type} (s : Sys T U) : Sys T U :=
  { s with handles := s.handles + 1 }

/-- `impl Drop for Future` (src/lib.rs lines 166-172): at the moment of
destruction the strong count still includes the dying handle; if that count
is at most 2 and the cancel-on-drop flag is set, `self.cancel()` runs; then
the count drops by one. -/
def dropHandle {T U : Type} (s : Sys T U) : Sys T U :=
  if s.handles ≤ 2 ∧ s.container.cancelOnDrop = true then
    { container := cancel s.container, handles := s.handles - 1 }
  else
    { s with handles := s.handles - 1 }

/-- One public operation on a future, for reasoning about arbitrary
operation sequences.  The consume operations take no extra data; the
blocking ones act on the container observed at wait-loop exit. -/
inductive Op (T U V : Type) where
  | setOp (v : T)
  | cancelOp
  | getStateOp
  | isWaitingOp
  | tryGetOp
  | tryGetTimeoutOp
  | getOp
  | getSharedOp
  | setSharedOp (u : U)
  | accessSharedOp (f : U → U)
  | accessSharedParamOp (f : U → V → U) (p : V)
  | detachOp
  | cloneOp
  | dropOp

/-- The state-transition function of one operation (outputs discarded). -/
def step {T U V : Type} : Op T U V → Sys T U → Sys T U
  | Op.setOp v, s => { s with container := (set s.container v).2 }
  | Op.cancelOp, s => { s with container := cancel s.container }
  | Op.getStateOp, s => s
  | Op.isWaitingOp, s => s
  | Op.tryGetOp, s => { s with container := (try_get s.container).2 }
  | Op.tryGetTimeoutOp, s => { s with container := (try_get_timeout s.container).2 }
  | Op.getOp, s => { s with container := (get s.container).2 }
  | Op.getSharedOp, s => { s with container := (get_shared_state s.container).2 }
  | Op.setSharedOp u, s => { s with container := set_shared_state s.container u }
  | Op.accessSharedOp f, s => { s with container := access_shared_state s.container f }
  | Op.accessSharedParamOp f p, s =>
      { s with container := access_shared_state_param s.container f p }
  | Op.detachOp, s => { s with container := detach s.container }
  | Op.cloneOp, s => cloneHandle s
  | Op.dropOp, s => dropHandle s

/-- A sequence of operations, applied left to right. -/
def steps {T U V : Type} : List (Op T U V) → Sys T U → Sys T U
  | [], s => s
  | op :: rest, s => steps rest (step op s)

/-- Dropping n handles in a row. -/
def dropN {T U : Type} : Nat → Sys T U → Sys T U
  | 0, s => s
  | n + 1, s => dropN n (dropHandle s)

/-- `Instant` subtraction (Rust `timeout_point - now`): panics — modelled as
none — when the right operand is the later instant.  Instants are clock
ticks (Nat). -/
def instantSub (a b : Nat) : Option Nat :=
  if b ≤ a then some (a - b) else none

/-- `time_remaining` (src/lib.rs lines 183-188): zero when now is past the
deadline, otherwise the raw Instant subtraction. -/
def time_remaining (timeout_point now : Nat) : Option Nat :=
  if now > timeout_point then some 0 else instantSub timeout_point now

/-- The legal lifecycle transitions of the spec: stay put, Waiting to Ready,
Waiting to Canceled, or Ready to Consumed. -/
def legalTransition (a b : State) : Prop :=
  a = b ∨ (a = State.Waiting ∧ (b = State.Ready ∨ b = State.Canceled)) ∨
    (a = State.Ready ∧ b = State.Consumed)

instance (a b : State) : Decidable (legalTransition a b) := by
  unfold legalTransition; infer_instance

/-- The payload invariant: the stored value is present exactly when the
state is Ready. -/
def payloadInv {T U : Type} (c : Container T U) : Prop :=
  c.value.isSome ↔ c.state = State.Ready

instance {T U : Type} (c : Container T U) : Decidable (payloadInv c) := by
  unfold payloadInv; infer_instance

/-! ## Helper lemmas on the transition system -/

theorem legal_not_waiting {a b : State} (h : legalTransition a b)
    (ha : a ≠ State.Waiting) : b ≠ State.Waiting := by
  rcases h with h | ⟨h1, _⟩ | ⟨_, h2⟩
  · exact h ▸ ha
  · exact absurd h1 ha
  · subst h2; decide

theorem legal_consumed {a b : State} (h : legalTransition a b)
    (ha : a = State.Consumed) : b = State.Consumed := by
  subst ha
  rcases h with h | ⟨h1, _⟩ | ⟨h1, _⟩
  · exact h.symm
  · cases h1
  · cases h1

theorem legal_canceled {a b : State} (h : legalTransition a b)
    (ha : a = State.Canceled) : b = State.Canceled := by
  subst ha
  rcases h with h | ⟨h1, _⟩ | ⟨h1, _⟩
  · exact h.symm
  · cases h1
  · cases h1

theorem cancel_legal {T U : Type} (c : Container T U) :
    legalTransition c.state (cancel c).state := by
  unfold cancel legalTransition
  split_ifs with h
  · exact Or.inr (Or.inl ⟨h, Or.inr rfl⟩)
  · exact Or.inl rfl

theorem set_legal {T U : Type} (c : Container T U) (v : T) :
    legalTransition c.state (set c v).2.state := by
  unfold set legalTransition
  split_ifs with h
  · exact Or.inl rfl
  · exact Or.inr (Or.inl ⟨not_not.mp h, Or.inl rfl⟩)

theorem extract_legal {T U : Type} (c : Container T U) :
    legalTransition c.state (extract_payload c).2.state := by
  unfold extract_payload legalTransition
  split_ifs with h
  · rcases hv : c.value with _ | v <;> simp [hv, h]
  · exact Or.inl rfl

theorem drop_legal {T U : Type} (s : Sys T U) :
    legalTransition s.container.state (dropHandle s).container.state := by
  unfold dropHandle
  split_ifs with h
  · exact cancel_legal s.container
  · exact Or.inl rfl

theorem step_legal {T U V : Type} (op : Op T U V) (s : Sys T U) :
    legalTransition s.container.state (step op s).container.state := by
  cases op with
  | setOp v => exact set_legal s.container v
  | cancelOp => exact cancel_legal s.container
  | getStateOp => exact Or.inl rfl
  | isWaitingOp => exact Or.inl rfl
  | tryGetOp => exact extract_legal s.container
  | tryGetTimeoutOp => exact extract_legal s.container
  | getOp => exact extract_legal s.container
  | getSharedOp => exact Or.inl rfl
  | setSharedOp u => exact Or.inl rfl
  | accessSharedOp f => exact Or.inl rfl
  | accessSharedParamOp f p => exact Or.inl rfl
  | detachOp => exact Or.inl rfl
  | cloneOp => exact Or.inl rfl
  | dropOp => exact drop_legal s

theorem steps_not_waiting {T U V : Type} (l : List (Op T U V)) (s : Sys T U)
    (h : s.container.state ≠ State.Waiting) :
    (steps l s).container.state ≠ State.Waiting := by
  induction l generalizing s with
  | nil => exact h
  | cons op rest ih => exact ih _ (legal_not_waiting (step_legal op s) h)

theorem steps_consumed {T U V : Type} (l : List (Op T U V)) (s : Sys T U)
    (h : s.container.state = State.Consumed) :
    (steps l s).container.state = State.Consumed := by
  induction l generalizing s with
  | nil => exact h
  | cons op rest ih => exact ih _ (legal_consumed (step_legal op s) h)

theorem steps_canceled {T U V : Type} (l : List (Op T U V)) (s : Sys T U)
    (h : s.container.state = State.Canceled) :
    (steps l s).container.state = State.Canceled := by
  induction l generalizing s with
  | nil => exact h
  | cons op rest ih => exact ih _ (legal_canceled (step_legal op s) h)

theorem set_inv {T U : Type} {c : Container T U} (v : T) (h : payloadInv c) :
    payloadInv (set c v).2 := by
  rcases c with ⟨st, val, sh, fl⟩
  unfold payloadInv at h ⊢
  cases st <;> rcases val with _ | w <;> simp_all [set]

theorem cancel_inv {T U : Type} {c : Container T U} (h : payloadInv c) :
    payloadInv (cancel c) := by
  rcases c with ⟨st, val, sh, fl⟩
  unfold payloadInv at h ⊢
  cases st <;> rcases val with _ | w <;> simp_all [cancel]

theorem extract_inv {T U : Type} {c : Container T U} (h : payloadInv c) :
    payloadInv (extract_payload c).2 := by
  rcases c with ⟨st, val, sh, fl⟩
  unfold payloadInv at h ⊢
  cases st <;> rcases val with _ | w <;> simp_all [extract_payload]

theorem drop_container {T U : Type} (s : Sys T U) :
    (dropHandle s).container = cancel s.container ∨
    (dropHandle s).container = s.container := by
  unfold dropHandle
  split_ifs <;> simp

theorem step_inv {T U V : Type} (op : Op T U V) (s : Sys T U)
    (h : payloadInv s.container) : payloadInv (step op s).container := by
  cases op with
  | setOp v => exact set_inv v h
  | cancelOp => exact cancel_inv h
  | getStateOp => exact h
  | isWaitingOp => exact h
  | tryGetOp => exact extract_inv h
  | tryGetTimeoutOp => exact extract_inv h
  | getOp => exact extract_inv h
  | getSharedOp => exact h
  | setSharedOp u => exact h
  | accessSharedOp f => exact h
  | accessSharedParamOp f p => exact h
  | detachOp => exact h
  | cloneOp => exact h
  | dropOp =>
      rcases drop_container s with hd | hd
      · show payloadInv (dropHandle s).container
        rw [hd]; exact cancel_inv h
      · show payloadInv (dropHandle s).container
        rw [hd]; exact h

theorem step_flag {T U V : Type} (op : Op T U V) (s : Sys T U)
    (h : s.container.cancelOnDrop = false) :
    (step op s).container.cancelOnDrop = false := by
  rcases s with ⟨⟨st, val, sh, fl⟩, n⟩
  cases op <;> cases st <;> rcases val with _ | v <;>
    simp_all [step, set, cancel, try_get, try_get_timeout, get,
      extract_payload, get_shared_state, set_shared_state,
      access_shared_state, access_shared_state_param, detach,
      cloneHandle, dropHandle]

theorem steps_flag {T U V : Type} (l : List (Op T U V)) (s : Sys T U)
    (h : s.container.cancelOnDrop = false) :
    (steps l s).container.cancelOnDrop = false := by
  induction l generalizing s with
  | nil => exact h
  | cons op rest ih => exact ih _ (step_flag op s h)

theorem dropN_succ {T U : Type} (n : Nat) (s : Sys T U) :
    dropN (n + 1) s = dropHandle (dropN n s) := by
  induction n generalizing s with
  | zero => rfl
  | succ k ih =>
      calc dropN (k + 2) s = dropN (k + 1) (dropHandle s) := rfl
        _ = dropHandle (dropN k (dropHandle s)) := ih (dropHandle s)
        _ = dropHandle (dropN (k + 1) s) := rfl

theorem dropN_keep {T U : Type} (n : Nat) (s : Sys T U)
    (hh : s.handles = n + 2) :
    dropN n s = { container := s.container, handles := 2 } := by
  induction n generalizing s with
  | zero => cases s; simp_all [dropN]
  | succ k ih =>
      have h3 : ¬(s.handles ≤ 2 ∧ s.container.cancelOnDrop = true) := by
        rw [hh]; rintro ⟨hle, _⟩; omega
      have hstep : dropHandle s = { s with handles := s.handles - 1 } := by
        unfold dropHandle; rw [if_neg h3]
      show dropN k (dropHandle s) = { container := s.container, handles := 2 }
      rw [hstep]
      exact ih { s with handles := s.handles - 1 } (by simp [hh])

/-! ## Claim theorems -/

/-- Claim C1: set(value) succeeds exactly when the state is Waiting, in which
case it moves the state to Ready and stores the value (leaving the shared
state and the flag alone); when the state is not Waiting — Ready after a
prior successful set, Consumed, or Canceled after cancel — set fails,
reports the current state as the error, and leaves the container entirely
unchanged. -/
theorem set_spec {T U : Type} (c : Container T U) (v w : T) :
    (c.state = State.Waiting →
      (set c v).1 = Except.ok () ∧
      (set c v).2.state = State.Ready ∧
      (set c v).2.value = some v ∧
      (set c v).2.sharedState = c.sharedState ∧
      (set c v).2.cancelOnDrop = c.cancelOnDrop ∧
      (set (set c v).2 w).1 = Except.error State.Ready ∧
      (set (cancel c) w).1 = Except.error State.Canceled) ∧
    (c.state ≠ State.Waiting →
      (set c v).1 = Except.error c.state ∧ (set c v).2 = c) := by
  constructor
  · intro h
    simp [set, cancel, h]
  · intro h
    simp [set, h]

theorem set_spec_witness :
    let c : Container Nat Nat := with_state 0
    c.state = State.Waiting ∧
    (set c 7).1 = Except.ok () ∧
    (set c 7).2.state = State.Ready ∧
    (set (set c 7).2 8).1 = Except.error State.Ready ∧
    (set (cancel c) 8).1 = Except.error State.Canceled ∧
    (set (set c 7).2 8).2 = (set c 7).2 := by
  refine ⟨rfl, ?_, ?_, ?_, ?_, ?_⟩
  · exact ((set_spec (with_state 0) 7 8).1 rfl).1
  · exact ((set_spec (with_state 0) 7 8).1 rfl).2.1
  · exact ((set_spec (with_state 0) 7 8).1 rfl).2.2.2.2.2.1
  · exact ((set_spec (with_state 0) 7 8).1 rfl).2.2.2.2.2.2
  · exact ((set_spec ((set (with_state 0) 7)).2 8 8).2 (by decide)).2

/-- Claim C2: try_get, try_get_timeout and get all funnel through the
single extraction rule extract_payload; that rule consumes a Ready
container atomically (state to Consumed, value taken) and returns the
stored value, fails with the current state on a non-Ready container
without changing it, and after a successful consume every later consume
attempt — in particular after any further operation sequence — fails
reporting Consumed, so a set value is delivered exactly once. -/
theorem consume_spec {T U V : Type} (c : Container T U) (v : T)
    (l : List (Op T U V)) (s : Sys T U) :
    try_get c = extract_payload c ∧
    try_get_timeout c = extract_payload c ∧
    get c = extract_payload c ∧
    (c.state = State.Ready → c.value = some v →
      (extract_payload c).1 = Except.ok v ∧
      (extract_payload c).2.state = State.Consumed ∧
      (extract_payload c).2.value = none) ∧
    (c.state ≠ State.Ready →
      (extract_payload c).1 = Except.error c.state ∧
      (extract_payload c).2 = c) ∧
    (c.state = State.Ready →
      (extract_payload (extract_payload c).2).1 = Except.error State.Consumed) ∧
    (s.container.state = State.Consumed →
      (try_get (steps l s).container).1 = Except.error State.Consumed) := by
  refine ⟨rfl, rfl, rfl, ?_, ?_, ?_, ?_⟩
  · intro h1 h2
    simp [extract_payload, h1, h2]
  · intro h
    simp [extract_payload, h]
  · intro h
    rcases hv : c.value with _ | w <;> simp [extract_payload, h, hv]
  · intro h
    have hc := steps_consumed l s h
    simp [try_get, extract_payload, hc]

theorem consume_spec_witness :
    let c : Container Nat Nat := (set (with_state 0) 7).2
    let s : Sys Nat Nat := { container := (extract_payload c).2, handles := 2 }
    c.state = State.Ready ∧ c.value = some 7 ∧
    (extract_payload c).1 = Except.ok 7 ∧
    (extract_payload c).2.state = State.Consumed ∧
    (extract_payload (extract_payload c).2).1 = Except.error State.Consumed ∧
    (try_get (steps ([Op.cancelOp, Op.cloneOp, Op.dropOp] :
      List (Op Nat Nat Nat)) s).container).1 = Except.error State.Consumed := by
  refine ⟨rfl, rfl, ?_, ?_, ?_, ?_⟩
  · exact ((consume_spec (set (with_state 0) 7).2 7
      ([] : List (Op Nat Nat Nat)) ⟨(set (with_state 0) 7).2, 2⟩).2.2.2.1
      rfl rfl).1
  · exact ((consume_spec (set (with_state 0) 7).2 7
      ([] : List (Op Nat Nat Nat)) ⟨(set (with_state 0) 7).2, 2⟩).2.2.2.1
      rfl rfl).2.1
  · exact (consume_spec (set (with_state 0) 7).2 7
      ([] : List (Op Nat Nat Nat)) ⟨(set (with_state 0) 7).2, 2⟩).2.2.2.2.2.1
      rfl
  · exact (consume_spec (set (with_state 0) 7).2 7
      [Op.cancelOp, Op.cloneOp, Op.dropOp]
      ⟨(extract_payload (set (with_state 0) 7).2).2, 2⟩).2.2.2.2.2.2
      (by decide)

/-- Claim C3: every operation — set, cancel, the consume operations, the
shared-state operations, detach, clone and handle drop — changes the
lifecycle state only along the legal transitions Waiting to Ready, Waiting
to Canceled and Ready to Consumed; over every operation sequence, Consumed
and Canceled are never left and Waiting is never re-entered. -/
theorem lifecycle_legal {T U V : Type} (op : Op T U V) (l : List (Op T U V))
    (s : Sys T U) :
    legalTransition s.container.state (step op s).container.state ∧
    (s.container.state = State.Consumed →
      (steps l s).container.state = State.Consumed) ∧
    (s.container.state = State.Canceled →
      (steps l s).container.state = State.Canceled) ∧
    (s.container.state ≠ State.Waiting →
      (steps l s).container.state ≠ State.Waiting) :=
  ⟨step_legal op s, steps_consumed l s, steps_canceled l s,
    steps_not_waiting l s⟩

theorem lifecycle_legal_witness :
    let s : Sys Nat Nat := { container := cancel (with_state 0), handles := 2 }
    legalTransition s.container.state
      (step (Op.setOp (T := Nat) (U := Nat) (V := Nat) 5) s).container.state ∧
    (steps ([Op.tryGetOp, Op.dropOp, Op.setOp 5] :
      List (Op Nat Nat Nat)) s).container.state = State.Canceled ∧
    (steps ([Op.cancelOp] : List (Op Nat Nat Nat)) s).container.state ≠
      State.Waiting := by
  refine ⟨?_, ?_, ?_⟩
  · exact (lifecycle_legal (Op.setOp 5) ([] : List (Op Nat Nat Nat))
      ⟨cancel (with_state 0), 2⟩).1
  · exact (lifecycle_legal (Op.setOp 5) [Op.tryGetOp, Op.dropOp, Op.setOp 5]
      ⟨cancel (with_state 0), 2⟩).2.2.1 (by decide)
  · exact (lifecycle_legal (Op.setOp 5) ([Op.cancelOp] : List (Op Nat Nat Nat))
      ⟨cancel (with_state 0), 2⟩).2.2.2 (by decide)

/-- Claim C4: a freshly constructed container satisfies the payload
invariant (Waiting, no value); every public operation preserves the
invariant that the stored value is present exactly when the state is Ready;
and the value is removed in the very step in which extraction moves the
state from Ready to Consumed. -/
theorem payload_invariant {T U V : Type} (u : U) (op : Op T U V)
    (s : Sys T U) :
    payloadInv (with_state u : Container T U) ∧
    (payloadInv s.container → payloadInv (step op s).container) ∧
    (s.container.state = State.Ready →
      (extract_payload s.container).2.state = State.Consumed ∧
      (extract_payload s.container).2.value = none) := by
  refine ⟨?_, step_inv op s, ?_⟩
  · unfold payloadInv with_state
    simp
  · intro h
    rcases hv : s.container.value with _ | v <;>
      simp [extract_payload, h, hv]

theorem payload_invariant_witness :
    let s : Sys Nat Nat := { container := (set (with_state 0) 7).2, handles := 2 }
    payloadInv (with_state 0 : Container Nat Nat) ∧
    payloadInv (step (Op.tryGetOp : Op Nat Nat Nat) s).container ∧
    (extract_payload s.container).2.state = State.Consumed ∧
    (extract_payload s.container).2.value = none := by
  refine ⟨?_, ?_, ?_, ?_⟩
  · exact (payload_invariant 0 (Op.tryGetOp : Op Nat Nat Nat)
      ⟨(set (with_state 0) 7).2, 2⟩).1
  · exact (payload_invariant 0 (Op.tryGetOp : Op Nat Nat Nat)
      ⟨(set (with_state 0) 7).2, 2⟩).2.1 (by decide)
  · exact ((payload_invariant 0 (Op.tryGetOp : Op Nat Nat Nat)
      ⟨(set (with_state 0) 7).2, 2⟩).2.2 rfl).1
  · exact ((payload_invariant 0 (Op.tryGetOp : Op Nat Nat Nat)
      ⟨(set (with_state 0) 7).2, 2⟩).2.2 rfl).2

/-- Claim C5: dropping a handle invokes cancel on the container exactly
when the cancel-on-drop flag is still true and the live-handle count
observed at destruction (which still includes the dying handle) is at most
two; in every other case — in particular whenever more than two handles are
alive — the container is left untouched, and the count always shrinks by
one. -/
theorem drop_cancel_iff {T U : Type} (s : Sys T U) :
    (dropHandle s).handles = s.handles - 1 ∧
    (s.container.cancelOnDrop = true ∧ s.handles ≤ 2 →
      (dropHandle s).container = cancel s.container) ∧
    (¬(s.container.cancelOnDrop = true ∧ s.handles ≤ 2) →
      (dropHandle s).container = s.container) ∧
    (2 < s.handles → (dropHandle s).container = s.container) ∧
    ((dropHandle s).container.state = State.Canceled ↔
      s.container.state = State.Canceled ∨
        (s.container.state = State.Waiting ∧
          s.container.cancelOnDrop = true ∧ s.handles ≤ 2)) := by
  unfold dropHandle
  refine ⟨?_, ?_, ?_, ?_, ?_⟩
  · split_ifs <;> rfl
  · intro h
    rw [if_pos ⟨h.2, h.1⟩]
  · intro h
    rw [if_neg (fun hc => h ⟨hc.2, hc.1⟩)]
  · intro h
    rw [if_neg (fun hc => absurd hc.1 (by omega))]
  · split_ifs with h
    · show (cancel s.container).state = State.Canceled ↔ _
      unfold cancel
      split_ifs with hw <;> simp_all
    · show s.container.state = State.Canceled ↔ _
      constructor
      · exact fun hc => Or.inl hc
      · rintro (hc | ⟨hw, hf, hle⟩)
        · exact hc
        · exact absurd ⟨hle, hf⟩ h

theorem drop_cancel_iff_witness :
    let s : Sys Nat Nat := { container := with_state 0, handles := 2 }
    let t : Sys Nat Nat := { container := with_state 0, handles := 5 }
    (dropHandle s).handles = 1 ∧
    (dropHandle s).container = cancel s.container ∧
    (dropHandle t).container = t.container ∧
    ((dropHandle s).container.state = State.Canceled ↔
      s.container.state = State.Canceled ∨
        (s.container.state = State.Waiting ∧
          s.container.cancelOnDrop = true ∧ s.handles ≤ 2)) := by
  refine ⟨?_, ?_, ?_, ?_⟩
  · exact (drop_cancel_iff (⟨with_state 0, 2⟩ : Sys Nat Nat)).1
  · exact (drop_cancel_iff (⟨with_state 0, 2⟩ : Sys Nat Nat)).2.1
      (by decide)
  · exact (drop_cancel_iff (⟨with_state 0, 5⟩ : Sys Nat Nat)).2.2.2.1
      (by decide)
  · exact (drop_cancel_iff (⟨with_state 0, 2⟩ : Sys Nat Nat)).2.2.2.2

/-- Claim C6 as stated is false on the code: with three live handles (the
job handle plus two others), a never-set container with the flag still
true, releasing one handle reaches exactly the point where only the job
handle and one other remain alive — yet the drop observed a count of 3, so
no cancellation fired and the state is still Waiting, not Canceled. -/
theorem drop_to_two_counterexample :
    let s : Sys Nat Nat := { container := with_state 0, handles := 3 }
    s.container.state = State.Waiting ∧
    s.container.cancelOnDrop = true ∧
    (dropHandle s).handles = 2 ∧
    (dropHandle s).container.state = State.Waiting ∧
    ¬(dropHandle s).container.state = State.Canceled := by decide

/-- Claim C6 (amended): for a never-set container with the flag true,
dropping external handles leaves the state Waiting as long as at least two
handles survive; the state transitions to Canceled exactly at the release
of the last external handle — the drop that observes a live count of 2 and
leaves only the job handle alive. -/
theorem drop_to_last_cancels {T U : Type} (s : Sys T U) (n : Nat)
    (hw : s.container.state = State.Waiting)
    (hf : s.container.cancelOnDrop = true)
    (hh : s.handles = n + 2) :
    (dropN n s).container.state = State.Waiting ∧
    (dropN n s).handles = 2 ∧
    (dropN (n + 1) s).container.state = State.Canceled ∧
    (dropN (n + 1) s).handles = 1 := by
  have hk := dropN_keep n s hh
  refine ⟨by rw [hk]; exact hw, by rw [hk], ?_, ?_⟩
  · rw [dropN_succ, hk]
    unfold dropHandle
    rw [if_pos ⟨by norm_num, hf⟩]
    show (cancel s.container).state = State.Canceled
    unfold cancel
    rw [if_pos hw]
  · rw [dropN_succ, hk]
    unfold dropHandle
    rw [if_pos ⟨by norm_num, hf⟩]
    rfl

theorem drop_to_last_cancels_witness :
    let s : Sys Nat Nat := { container := with_state 0, handles := 4 }
    (dropN 2 s).container.state = State.Waiting ∧
    (dropN 2 s).handles = 2 ∧
    (dropN 3 s).container.state = State.Canceled ∧
    (dropN 3 s).handles = 1 :=
  drop_to_last_cancels (⟨with_state 0, 4⟩ : Sys Nat Nat) 2
    (by decide) (by decide) (by decide)

/-- Claim C7: the cancel-on-drop flag is true at construction; detach sets
it to false; no operation ever sets it back to true (over single steps and
whole sequences); and once the flag is false, no handle release ever
touches the container again. -/
theorem detach_one_way {T U V : Type} (u : U) (c : Container T U)
    (op : Op T U V) (l : List (Op T U V)) (s : Sys T U) :
    (with_state u : Container T U).cancelOnDrop = true ∧
    (detach c).cancelOnDrop = false ∧
    ((step op s).container.cancelOnDrop = true →
      s.container.cancelOnDrop = true) ∧
    (s.container.cancelOnDrop = false →
      (steps l s).container.cancelOnDrop = false) ∧
    (s.container.cancelOnDrop = false →
      (dropHandle s).container = s.container) := by
  refine ⟨rfl, rfl, ?_, steps_flag l s, ?_⟩
  · intro h
    by_contra hfalse
    have hf : s.container.cancelOnDrop = false := by
      cases hb : s.container.cancelOnDrop
      · rfl
      · exact absurd hb hfalse
    rw [step_flag op s hf] at h
    cases h
  · intro h
    unfold dropHandle
    rw [if_neg (fun hc => by rw [h] at hc; cases hc.2)]

theorem detach_one_way_witness :
    let s : Sys Nat Nat := { container := detach (with_state 0), handles := 2 }
    (with_state 0 : Container Nat Nat).cancelOnDrop = true ∧
    (detach (with_state 0 : Container Nat Nat)).cancelOnDrop = false ∧
    (steps ([Op.cloneOp, Op.dropOp, Op.cancelOp] : List (Op Nat Nat Nat))
      s).container.cancelOnDrop = false ∧
    (dropHandle s).container = s.container := by
  refine ⟨?_, ?_, ?_, ?_⟩
  · exact (detach_one_way 0 (with_state 0) (Op.dropOp : Op Nat Nat Nat)
      [] ⟨detach (with_state 0), 2⟩).1
  · exact (detach_one_way 0 (with_state 0) (Op.dropOp : Op Nat Nat Nat)
      [] ⟨detach (with_state 0), 2⟩).2.1
  · exact (detach_one_way 0 (with_state 0) (Op.dropOp : Op Nat Nat Nat)
      [Op.cloneOp, Op.dropOp, Op.cancelOp]
      ⟨detach (with_state 0), 2⟩).2.2.2.1 (by decide)
  · exact (detach_one_way 0 (with_state 0) (Op.dropOp : Op Nat Nat Nat)
      [] ⟨detach (with_state 0), 2⟩).2.2.2.2 (by decide)

/-- Claim C8: the four shared-state operations can be performed in any
lifecycle state and leave the lifecycle state, the stored result value and
the cancel-on-drop flag unchanged, while the auxiliary value itself is read
or replaced or mutated in place — it is mutable independently of the
lifecycle of the result. -/
theorem shared_state_frame {T U V : Type} (c : Container T U) (u : U)
    (f : U → U) (g : U → V → U) (p : V) :
    (get_shared_state c).1 = c.sharedState ∧
    (get_shared_state c).2 = c ∧
    (set_shared_state c u).state = c.state ∧
    (set_shared_state c u).value = c.value ∧
    (set_shared_state c u).cancelOnDrop = c.cancelOnDrop ∧
    (set_shared_state c u).sharedState = u ∧
    (access_shared_state c f).state = c.state ∧
    (access_shared_state c f).value = c.value ∧
    (access_shared_state c f).cancelOnDrop = c.cancelOnDrop ∧
    (access_shared_state c f).sharedState = f c.sharedState ∧
    (access_shared_state_param c g p).state = c.state ∧
    (access_shared_state_param c g p).value = c.value ∧
    (access_shared_state_param c g p).cancelOnDrop = c.cancelOnDrop ∧
    (access_shared_state_param c g p).sharedState = g c.sharedState p :=
  ⟨rfl, rfl, rfl, rfl, rfl, rfl, rfl, rfl, rfl, rfl, rfl, rfl, rfl, rfl⟩

/-- Claim C9: the remaining-wait computation of try_get_timeout equals
max(0, deadline − now): zero whenever now is past the deadline, the exact
difference otherwise, and the panicking raw Instant subtraction branch is
never reached — the result is always a defined duration. -/
theorem time_remaining_spec (timeout_point now : Nat) :
    time_remaining timeout_point now = some (timeout_point - now) ∧
    time_remaining timeout_point now =
      some ((max 0 ((timeout_point : Int) - (now : Int))).toNat) := by
  have hmax : (max 0 ((timeout_point : Int) - (now : Int))).toNat =
      timeout_point - now := by
    rcases le_total (now : Int) (timeout_point : Int) with h | h
    · rw [max_eq_right (sub_nonneg.mpr h)]
      omega
    · rw [max_eq_left (sub_nonpos.mpr h)]
      omega
  unfold time_remaining instantSub
  rw [hmax]
  split_ifs with h h2
  · have h0 : timeout_point - now = 0 := by omega
    rw [h0]
    exact ⟨rfl, rfl⟩
  · exact ⟨rfl, rfl⟩
  · omega

/-- Claim C10: dropping a handle of a container whose state is not Waiting
— Ready, Consumed or Canceled — leaves the container completely unchanged,
whatever the live count and the flag: the drop-triggered cancel is a no-op
outside Waiting, so a Ready result delivered by set survives any handle
release. -/
theorem drop_nonwaiting_frame {T U : Type} (s : Sys T U)
    (h : s.container.state ≠ State.Waiting) :
    (dropHandle s).container = s.container ∧
    (dropHandle s).container.state = s.container.state ∧
    (dropHandle s).container.value = s.container.value ∧
    (dropHandle s).handles = s.handles - 1 := by
  have hc : (dropHandle s).container = s.container := by
    unfold dropHandle
    split_ifs with hcond
    · show cancel s.container = s.container
      unfold cancel
      rw [if_neg h]
    · rfl
  refine ⟨hc, by rw [hc], by rw [hc], ?_⟩
  unfold dropHandle
  split_ifs <;> rfl

theorem drop_nonwaiting_frame_witness :
    let s : Sys Nat Nat := { container := (set (with_state 0) 7).2, handles := 2 }
    (dropHandle s).container = s.container ∧
    (dropHandle s).container.state = State.Ready ∧
    (dropHandle s).container.value = some 7 := by
  refine ⟨?_, ?_, ?_⟩
  · exact (drop_nonwaiting_frame
      (⟨(set (with_state 0) 7).2, 2⟩ : Sys Nat Nat) (by decide)).1
  · rw [(drop_nonwaiting_frame
      (⟨(set (with_state 0) 7).2, 2⟩ : Sys Nat Nat) (by decide)).2.1]
    decide
  · rw [(drop_nonwaiting_frame
      (⟨(set (with_state 0) 7).2, 2⟩ : Sys Nat Nat) (by decide)).2.2.1]
    decide

end TinyFuture
